import Mathlib

/-!
Verification of the geometric/layout core of the VisionXtools.extension
repository (RoomSections pushbutton script): section-box derivation for
room bounding boxes and row-based viewport packing on sheets.

All real-valued quantities are modelled as rationals.  The shallow
embedding follows `src/VisionXtools.tab/View.panel/Section.pulldown/`
`RoomSections.pushbutton/script.py`; names mirror the source where Lean
allows it.
-/

namespace VisionXtools

/-- 3D point/vector with rational coordinates, modelling the host `XYZ` type. -/
structure XYZ where
  x : ℚ
  y : ℚ
  z : ℚ
deriving DecidableEq

/-- Dot product of two vectors. -/
def XYZ.dot (a b : XYZ) : ℚ :=
  a.x * b.x + a.y * b.y + a.z * b.z

/-- Cross product of two vectors (models `XYZ.CrossProduct`). -/
def XYZ.cross (a b : XYZ) : XYZ :=
  ⟨a.y * b.z - a.z * b.y, a.z * b.x - a.x * b.z, a.x * b.y - a.y * b.x⟩

/-- World X unit vector (`XYZ.BasisX`). -/
def XYZ.basisX : XYZ := ⟨1, 0, 0⟩

/-- World Y unit vector (`XYZ.BasisY`). -/
def XYZ.basisY : XYZ := ⟨0, 1, 0⟩

/-- World Z unit vector (`XYZ.BasisZ`). -/
def XYZ.basisZ : XYZ := ⟨0, 0, 1⟩

/-- Axis-aligned bounding box, modelling the host `BoundingBoxXYZ`. -/
structure BoundingBoxXYZ where
  min : XYZ
  max : XYZ
deriving DecidableEq

/-- Section orientation selected by the caller of `create_section_for_room`
(the source passes the strings `'vertical'` / `'horizontal'`). -/
inductive Orientation where
  | vertical
  | horizontal
deriving DecidableEq

/-- `width_x = bbox.Max.X - bbox.Min.X` (script.py line 73). -/
def width_x (b : BoundingBoxXYZ) : ℚ := b.max.x - b.min.x

/-- `width_y = bbox.Max.Y - bbox.Min.Y` (script.py line 74). -/
def width_y (b : BoundingBoxXYZ) : ℚ := b.max.y - b.min.y

/-- `height_z = bbox.Max.Z - bbox.Min.Z` (script.py line 75). -/
def height_z (b : BoundingBoxXYZ) : ℚ := b.max.z - b.min.z

/-- `center = (bbox.Max + bbox.Min) / 2.0` (script.py line 72). -/
def center (b : BoundingBoxXYZ) : XYZ :=
  ⟨(b.max.x + b.min.x) / 2, (b.max.y + b.min.y) / 2, (b.max.z + b.min.z) / 2⟩

/-- `major_is_x` flag: the source sets it from `if width_x >= width_y`
(script.py lines 81-88), so ties favour X. -/
def major_is_x (b : BoundingBoxXYZ) : Bool :=
  width_y b ≤ width_x b

/-- `major_width` of the room footprint (script.py lines 81-88). -/
def major_width (b : BoundingBoxXYZ) : ℚ :=
  if major_is_x b then width_x b else width_y b

/-- `minor_width` of the room footprint (script.py lines 81-88). -/
def minor_width (b : BoundingBoxXYZ) : ℚ :=
  if major_is_x b then width_y b else width_x b

/-- The `right` direction chosen for a given orientation
(script.py lines 119-146): vertical sections run along the major axis,
horizontal sections along the minor axis. -/
def sectionRight (b : BoundingBoxXYZ) (o : Orientation) : XYZ :=
  match o with
  | Orientation.vertical => if major_is_x b then XYZ.basisX else XYZ.basisY
  | Orientation.horizontal => if major_is_x b then XYZ.basisY else XYZ.basisX

/-- `section_width` for a given orientation (script.py lines 119-146). -/
def section_width (b : BoundingBoxXYZ) (o : Orientation) : ℚ :=
  match o with
  | Orientation.vertical => major_width b
  | Orientation.horizontal => minor_width b

/-- `section_depth` for a given orientation (script.py lines 119-146). -/
def section_depth (b : BoundingBoxXYZ) (o : Orientation) : ℚ :=
  match o with
  | Orientation.vertical => minor_width b
  | Orientation.horizontal => major_width b

/-- The name tag appended per orientation (script.py lines 132 and 146). -/
def orientTag (o : Orientation) : String :=
  match o with
  | Orientation.vertical => "V"
  | Orientation.horizontal => "H"

/-- The section-box data assembled by `create_section_for_room`:
origin and basis of the transform `t` (script.py lines 148-157) and the
local extents of `bbox_section` (script.py lines 163-166). -/
structure SectionSpec where
  origin : XYZ
  basisRight : XYZ
  basisUp : XYZ
  basisView : XYZ
  localMin : XYZ
  localMax : XYZ
  tag : String
deriving DecidableEq

/-- Core of `create_section_for_room` once a bounding box is available
(script.py lines 71-166): choose axes by orientation, set
`up = XYZ.BasisZ`, `view_dir = right.CrossProduct(up)`, and build the
section bounding box
`Min = (-section_width/2 - offset, -height_z/2 - offset, 0)`,
`Max = (section_width/2 + offset, height_z/2 + offset, section_depth + offset)`.
The clearance `offset` is passed in (the source computes it from the
document's display units, a host concern). -/
def section_spec_for_bbox (b : BoundingBoxXYZ) (o : Orientation) (offset : ℚ) : SectionSpec :=
  { origin := center b
    basisRight := sectionRight b o
    basisUp := XYZ.basisZ
    basisView := (sectionRight b o).cross XYZ.basisZ
    localMin := ⟨-(section_width b o / 2) - offset, -(height_z b / 2) - offset, 0⟩
    localMax := ⟨section_width b o / 2 + offset, height_z b / 2 + offset,
                 section_depth b o + offset⟩
    tag := orientTag o }

/-- `create_section_for_room` (script.py lines 42-185): returns `none`
when the room has no bounding box (`bbox is None`, line 68); otherwise
derives the section-box data.  The host call `ViewSection.CreateSection`
and the view renaming are external effects not modelled here. -/
def create_section_for_room (bbox : Option BoundingBoxXYZ) (o : Orientation)
    (offset : ℚ) : Option SectionSpec :=
  match bbox with
  | none => none
  | some b => some (section_spec_for_bbox b o offset)

/-- Phase 4 of the script (lines 350-366): for each room, derive the
vertical and then the horizontal section; a `none` result is recorded as
a diagnostic (the source appends an error string naming the room; here
the room's counter identifies it) and processing continues with the
remaining rooms.  `counter` mirrors `enumerate(rooms, start=1)`. -/
def create_sections_phase : List (Option BoundingBoxXYZ) → ℚ → Nat →
    List SectionSpec × List Nat
  | [], _, _ => ([], [])
  | bbox :: rest, offset, counter =>
    let sv := create_section_for_room bbox Orientation.vertical offset
    let sh := create_section_for_room bbox Orientation.horizontal offset
    let tail := create_sections_phase rest offset (counter + 1)
    (sv.toList ++ sh.toList ++ tail.1,
     ((if sv.isSome then [] else [counter]) ++ (if sh.isSome then [] else [counter])) ++ tail.2)

/-- One entry of `viewport_data` (script.py lines 502-507): the view
identity, its paper-space width/height, and the mutable `placed` flag. -/
structure ViewportRect where
  id : Nat
  width : ℚ
  height : ℚ
  placed : Bool
deriving DecidableEq

/-- One entry of the `placements` list built by `pack_viewports_on_sheet`
(script.py lines 234-238): the placed viewport (its identity and
dimensions) together with the computed center point. -/
structure Placement where
  id : Nat
  w : ℚ
  h : ℚ
  x : ℚ
  y : ℚ
deriving DecidableEq, Inhabited

/-- The `for vp in viewport_data` loop of `pack_viewports_on_sheet`
(script.py lines 209-243), carrying the cursor state
`(current_x, current_y, row_height)`.  Already-placed entries are
skipped; a row overflow (`current_x + vp_w > available_width + margin`)
starts a new row; a vertical overflow (`current_y + vp_h >
available_height + margin`) breaks out of the loop, leaving the
remaining entries untouched; otherwise the viewport is placed at
`(current_x + vp_w/2, current_y + vp_h/2)`, marked placed, and the
cursor advances.  Returns the placements together with the updated
`viewport_data`. -/
def packGo (width height margin gap : ℚ) :
    List ViewportRect → ℚ → ℚ → ℚ → List Placement × List ViewportRect
  | [], _, _, _ => ([], [])
  | vp :: rest, current_x, current_y, row_height =>
    if vp.placed then
      let r := packGo width height margin gap rest current_x current_y row_height
      (r.1, vp :: r.2)
    else
      let x1 := if width + margin < current_x + vp.width then margin else current_x
      let y1 := if width + margin < current_x + vp.width then current_y + row_height + gap
                else current_y
      let rh1 := if width + margin < current_x + vp.width then 0 else row_height
      if height + margin < y1 + vp.height then
        ([], vp :: rest)
      else
        let r := packGo width height margin gap rest (x1 + vp.width + gap) y1
                   (max rh1 vp.height)
        (⟨vp.id, vp.width, vp.height, x1 + vp.width / 2, y1 + vp.height / 2⟩ :: r.1,
         { vp with placed := true } :: r.2)

/-- One call of the shelf packer with the gap between viewports as an
explicit parameter: the cursor starts at `(margin, margin)` with
`row_height = 0` (script.py lines 201-204). -/
def packOnePage (viewport_data : List ViewportRect)
    (available_width available_height margin gap : ℚ) :
    List Placement × List ViewportRect :=
  packGo available_width available_height margin gap viewport_data margin margin 0

/-- `pack_viewports_on_sheet` (script.py lines 188-246): exactly
`packOnePage` with the gap fixed to the source's hard-coded literal
`gap = 0.033` (10mm, line 205). -/
def pack_viewports_on_sheet (viewport_data : List ViewportRect)
    (available_width available_height margin : ℚ) :
    List Placement × List ViewportRect :=
  packOnePage viewport_data available_width available_height margin (33 / 1000)

/-- Number of entries still unplaced. -/
def unplacedCount (l : List ViewportRect) : Nat :=
  l.countP (fun vp => !vp.placed)

/-- Fuel-indexed form of the Phase 7 sheet loop (script.py lines
521-549): while not every viewport is placed, pack one page; if the call
returns zero placements, break; otherwise open a new sheet for the
returned placements and continue.  Each productive iteration strictly
decreases `unplacedCount`, so any fuel above `unplacedCount` computes
the loop's fixpoint (`packAllLoop_stable` below). -/
def packAllLoop : Nat → List ViewportRect → ℚ → ℚ → ℚ → ℚ →
    List (List Placement) × List ViewportRect
  | 0, viewport_data, _, _, _, _ => ([], viewport_data)
  | fuel + 1, viewport_data, w, h, m, g =>
    if viewport_data.all (fun vp => vp.placed) then ([], viewport_data)
    else
      let res := packOnePage viewport_data w h m g
      if res.1.length = 0 then ([], res.2)
      else
        let tail := packAllLoop fuel res.2 w h m g
        (res.1 :: tail.1, tail.2)

/-- The Phase 7 sheet-packing loop: one inner list per created sheet, in
creation order, plus the final state of `viewport_data`.  The fuel
`length + 1` always suffices (see `packAllLoop_stable`). -/
def packAll (viewport_data : List ViewportRect) (w h m g : ℚ) :
    List (List Placement) × List ViewportRect :=
  packAllLoop (viewport_data.length + 1) viewport_data w h m g

/-- Open-interior intersection of two placed rectangles (each centered
at its placement point with its recorded width and height). -/
def overlaps (p q : Placement) : Prop :=
  (p.x - p.w / 2 < q.x + q.w / 2 ∧ q.x - q.w / 2 < p.x + p.w / 2) ∧
  (p.y - p.h / 2 < q.y + q.h / 2 ∧ q.y - q.h / 2 < p.y + p.h / 2)

instance (p q : Placement) : Decidable (overlaps p q) := by
  unfold overlaps
  infer_instance

/-! ### Step equations of the packing loop -/

theorem packGo_nil (width height margin gap current_x current_y row_height : ℚ) :
    packGo width height margin gap [] current_x current_y row_height = ([], []) :=
  rfl

theorem packGo_cons_placed (width height margin gap current_x current_y row_height : ℚ)
    (vp : ViewportRect) (rest : List ViewportRect) (hp : vp.placed = true) :
    packGo width height margin gap (vp :: rest) current_x current_y row_height =
      ((packGo width height margin gap rest current_x current_y row_height).1,
       vp :: (packGo width height margin gap rest current_x current_y row_height).2) := by
  simp [packGo, hp]

theorem packGo_cons_stop (width height margin gap current_x current_y row_height : ℚ)
    (vp : ViewportRect) (rest : List ViewportRect) (hp : vp.placed = false)
    (hw : ¬ (width + margin < current_x + vp.width))
    (hv : height + margin < current_y + vp.height) :
    packGo width height margin gap (vp :: rest) current_x current_y row_height =
      ([], vp :: rest) := by
  simp [packGo, hp, hw, hv]

theorem packGo_cons_place (width height margin gap current_x current_y row_height : ℚ)
    (vp : ViewportRect) (rest : List ViewportRect) (hp : vp.placed = false)
    (hw : ¬ (width + margin < current_x + vp.width))
    (hv : ¬ (height + margin < current_y + vp.height)) :
    packGo width height margin gap (vp :: rest) current_x current_y row_height =
      (⟨vp.id, vp.width, vp.height, current_x + vp.width / 2, current_y + vp.height / 2⟩ ::
         (packGo width height margin gap rest (current_x + vp.width + gap) current_y
            (max row_height vp.height)).1,
       { vp with placed := true } ::
         (packGo width height margin gap rest (current_x + vp.width + gap) current_y
            (max row_height vp.height)).2) := by
  simp [packGo, hp, hw, hv]

theorem packGo_cons_wrap_stop (width height margin gap current_x current_y row_height : ℚ)
    (vp : ViewportRect) (rest : List ViewportRect) (hp : vp.placed = false)
    (hw : width + margin < current_x + vp.width)
    (hv : height + margin < current_y + row_height + gap + vp.height) :
    packGo width height margin gap (vp :: rest) current_x current_y row_height =
      ([], vp :: rest) := by
  simp [packGo, hp, hw, hv]

theorem packGo_cons_wrap_place (width height margin gap current_x current_y row_height : ℚ)
    (vp : ViewportRect) (rest : List ViewportRect) (hp : vp.placed = false)
    (hw : width + margin < current_x + vp.width)
    (hv : ¬ (height + margin < current_y + row_height + gap + vp.height)) :
    packGo width height margin gap (vp :: rest) current_x current_y row_height =
      (⟨vp.id, vp.width, vp.height, margin + vp.width / 2,
          current_y + row_height + gap + vp.height / 2⟩ ::
         (packGo width height margin gap rest (margin + vp.width + gap)
            (current_y + row_height + gap) (max 0 vp.height)).1,
       { vp with placed := true } ::
         (packGo width height margin gap rest (margin + vp.width + gap)
            (current_y + row_height + gap) (max 0 vp.height)).2) := by
  simp [packGo, hp, hw, hv]

/-! ### Bookkeeping lemmas for the packing loop -/

/-- Packing only flips `placed` flags: any property of the entries'
dimensions carries over to the updated `viewport_data`. -/
theorem packGo_preserves (P : ℚ → ℚ → Prop) (width height margin gap : ℚ)
    (l : List ViewportRect) :
    ∀ current_x current_y row_height, (∀ vp ∈ l, P vp.width vp.height) →
      ∀ vp ∈ (packGo width height margin gap l current_x current_y row_height).2,
        P vp.width vp.height := by
  induction l with
  | nil =>
    intro cx cy rh _ vp hvp
    simp [packGo_nil] at hvp
  | cons vp0 rest ih =>
    intro cx cy rh hl vp hvp
    have h0 : P vp0.width vp0.height := hl vp0 (List.mem_cons_self _ _)
    have hrest : ∀ v ∈ rest, P v.width v.height := fun v hv => hl v (List.mem_cons_of_mem _ hv)
    by_cases hp : vp0.placed = true
    · rw [packGo_cons_placed _ _ _ _ _ _ _ _ _ hp] at hvp
      rcases List.mem_cons.1 hvp with rfl | hvp
      · exact h0
      · exact ih cx cy rh hrest vp hvp
    · have hp' : vp0.placed = false := by simpa using hp
      by_cases hw : width + margin < cx + vp0.width
      · by_cases hv : height + margin < cy + rh + gap + vp0.height
        · rw [packGo_cons_wrap_stop _ _ _ _ _ _ _ _ _ hp' hw hv] at hvp
          exact hl vp hvp
        · rw [packGo_cons_wrap_place _ _ _ _ _ _ _ _ _ hp' hw hv] at hvp
          rcases List.mem_cons.1 hvp with rfl | hvp
          · exact h0
          · exact ih _ _ _ hrest vp hvp
      · by_cases hv : height + margin < cy + vp0.height
        · rw [packGo_cons_stop _ _ _ _ _ _ _ _ _ hp' hw hv] at hvp
          exact hl vp hvp
        · rw [packGo_cons_place _ _ _ _ _ _ _ _ _ hp' hw hv] at hvp
          rcases List.mem_cons.1 hvp with rfl | hvp
          · exact h0
          · exact ih _ _ _ hrest vp hvp

/-- The placements made by one packing pass account exactly for the
entries whose `placed` flag flips: unplaced count plus placements made
is the original unplaced count. -/
theorem packGo_count (width height margin gap : ℚ) (l : List ViewportRect) :
    ∀ current_x current_y row_height,
      unplacedCount (packGo width height margin gap l current_x current_y row_height).2 +
        (packGo width height margin gap l current_x current_y row_height).1.length =
        unplacedCount l := by
  induction l with
  | nil => intro cx cy rh; simp [packGo_nil, unplacedCount]
  | cons vp0 rest ih =>
    intro cx cy rh
    by_cases hp : vp0.placed = true
    · rw [packGo_cons_placed _ _ _ _ _ _ _ _ _ hp]
      have := ih cx cy rh
      simp only [unplacedCount, List.countP_cons, hp] at this ⊢
      simpa using this
    · have hp' : vp0.placed = false := by simpa using hp
      by_cases hw : width + margin < cx + vp0.width
      · by_cases hv : height + margin < cy + rh + gap + vp0.height
        · rw [packGo_cons_wrap_stop _ _ _ _ _ _ _ _ _ hp' hw hv]
          simp
        · rw [packGo_cons_wrap_place _ _ _ _ _ _ _ _ _ hp' hw hv]
          have := ih (margin + vp0.width + gap) (cy + rh + gap) (max 0 vp0.height)
          simp [unplacedCount, List.countP_cons, hp'] at this ⊢
          omega
      · by_cases hv : height + margin < cy + vp0.height
        · rw [packGo_cons_stop _ _ _ _ _ _ _ _ _ hp' hw hv]
          simp
        · rw [packGo_cons_place _ _ _ _ _ _ _ _ _ hp' hw hv]
          have := ih (cx + vp0.width + gap) cy (max rh vp0.height)
          simp [unplacedCount, List.countP_cons, hp'] at this ⊢
          omega

/-- Fuel irrelevance for the Phase 7 loop: any fuel above the number of
unplaced entries computes the loop's fixpoint, so `packAll`'s choice of
`length + 1` is as good as an unbounded `while` loop. -/
theorem packAllLoop_stable (w h m g : ℚ) :
    ∀ fuel rects, unplacedCount rects < fuel →
      packAllLoop fuel rects w h m g = packAllLoop (fuel + 1) rects w h m g := by
  intro fuel
  induction fuel with
  | zero => intro rects hcount; exact absurd hcount (Nat.not_lt_zero _)
  | succ f ih =>
    intro rects hcount
    by_cases hall : rects.all (fun vp => vp.placed) = true
    · rw [packAllLoop, packAllLoop]
      simp [hall]
    · by_cases hlen : (packOnePage rects w h m g).1.length = 0
      · rw [packAllLoop, packAllLoop]
        simp [hall, hlen]
      · have hprog : unplacedCount (packOnePage rects w h m g).2 < f := by
          have hc := packGo_count w h m g rects m m 0
          have h1 : 1 ≤ (packOnePage rects w h m g).1.length := Nat.one_le_iff_ne_zero.2 hlen
          unfold packOnePage at hlen h1 ⊢
          omega
        rw [packAllLoop, packAllLoop]
        simp only [hall, if_neg, ite_false, Bool.false_eq_true]
        simp only [hlen, if_neg, ite_false]
        rw [ih _ hprog]

/-! ### Geometry of the placements made by one packing pass -/

/-- Row/column structure of a packing pass started at cursor
`(current_x, current_y)` with accumulated `row_height`: every placement
either sits in the current row (bottom edge at `current_y`, left edge at
or right of the cursor) or in some later row (bottom edge at or below
`current_y + row_height + gap`); and no two placements of the pass have
intersecting interiors. -/
theorem packGo_geom (width height margin gap : ℚ) (l : List ViewportRect) (hg : 0 ≤ gap) :
    ∀ current_x current_y row_height, (∀ vp ∈ l, 0 ≤ vp.width ∧ 0 ≤ vp.height) →
      (∀ p ∈ (packGo width height margin gap l current_x current_y row_height).1,
          (p.y - p.h / 2 = current_y ∧ current_x ≤ p.x - p.w / 2) ∨
          current_y + row_height + gap ≤ p.y - p.h / 2) ∧
      List.Pairwise (fun p q => ¬ overlaps p q)
        (packGo width height margin gap l current_x current_y row_height).1 := by
  induction l with
  | nil => intro cx cy rh _; simp [packGo_nil]
  | cons vp rest ih =>
    intro cx cy rh hl
    have hvp := hl vp (List.mem_cons_self _ _)
    have hrest : ∀ v ∈ rest, 0 ≤ v.width ∧ 0 ≤ v.height :=
      fun v hv => hl v (List.mem_cons_of_mem _ hv)
    by_cases hp : vp.placed = true
    · rw [packGo_cons_placed _ _ _ _ _ _ _ _ _ hp]
      exact ih cx cy rh hrest
    · have hp' : vp.placed = false := by simpa using hp
      by_cases hw : width + margin < cx + vp.width
      · by_cases hv : height + margin < cy + rh + gap + vp.height
        · rw [packGo_cons_wrap_stop _ _ _ _ _ _ _ _ _ hp' hw hv]
          simp
        · rw [packGo_cons_wrap_place _ _ _ _ _ _ _ _ _ hp' hw hv]
          obtain ⟨ihrow, ihpw⟩ := ih (margin + vp.width + gap) (cy + rh + gap) (max 0 vp.height) hrest
          constructor
          · intro p hpmem
            rcases List.mem_cons.1 hpmem with rfl | hpmem
            · right
              simp only
              linarith
            · rcases ihrow p hpmem with ⟨hb, _⟩ | hb
              · right; linarith
              · right
                have hmax : (0:ℚ) ≤ max 0 vp.height := le_max_left _ _
                linarith
          · refine List.Pairwise.cons ?_ ihpw
            intro q hq hover
            rcases ihrow q hq with ⟨hb, hleft⟩ | hb
            · have hx : q.x - q.w / 2 < (margin + vp.width / 2) + vp.width / 2 := by
                have := hover.1.2
                simpa using this
              have : margin + vp.width + gap ≤ q.x - q.w / 2 := hleft
              linarith
            · have hy : q.y - q.h / 2 <
                  (cy + rh + gap + vp.height / 2) + vp.height / 2 := by
                have := hover.2.2
                simpa using this
              have hmax : vp.height ≤ max 0 vp.height := le_max_right _ _
              linarith
      · by_cases hv : height + margin < cy + vp.height
        · rw [packGo_cons_stop _ _ _ _ _ _ _ _ _ hp' hw hv]
          simp
        · rw [packGo_cons_place _ _ _ _ _ _ _ _ _ hp' hw hv]
          obtain ⟨ihrow, ihpw⟩ := ih (cx + vp.width + gap) cy (max rh vp.height) hrest
          constructor
          · intro p hpmem
            rcases List.mem_cons.1 hpmem with rfl | hpmem
            · left
              constructor
              · simp only
                ring
              · simp only
                linarith
            · rcases ihrow p hpmem with ⟨hb, hleft⟩ | hb
              · left
                exact ⟨hb, by linarith [hvp.1]⟩
              · right
                have hmax : rh ≤ max rh vp.height := le_max_left _ _
                linarith
          · refine List.Pairwise.cons ?_ ihpw
            intro q hq hover
            rcases ihrow q hq with ⟨hb, hleft⟩ | hb
            · have hx : q.x - q.w / 2 < (cx + vp.width / 2) + vp.width / 2 := by
                have := hover.1.2
                simpa using this
              linarith
            · have hy : q.y - q.h / 2 < (cy + vp.height / 2) + vp.height / 2 := by
                have := hover.2.2
                simpa using this
              have hmax : vp.height ≤ max rh vp.height := le_max_right _ _
              linarith

/-- Every placement of a packing pass keeps its rectangle's left and top
edges at or beyond the margin, provided the cursor starts there. -/
theorem packGo_margin (width height margin gap : ℚ) (l : List ViewportRect) (hg : 0 ≤ gap) :
    ∀ current_x current_y row_height,
      margin ≤ current_x → margin ≤ current_y → 0 ≤ row_height →
      (∀ vp ∈ l, 0 ≤ vp.width) →
      ∀ p ∈ (packGo width height margin gap l current_x current_y row_height).1,
        margin ≤ p.x - p.w / 2 ∧ margin ≤ p.y - p.h / 2 := by
  induction l with
  | nil => intro cx cy rh _ _ _ _ p hp; simp [packGo_nil] at hp
  | cons vp rest ih =>
    intro cx cy rh hx hy hrh hl p hpmem
    have hvp := hl vp (List.mem_cons_self _ _)
    have hrest : ∀ v ∈ rest, 0 ≤ v.width := fun v hv => hl v (List.mem_cons_of_mem _ hv)
    by_cases hp : vp.placed = true
    · rw [packGo_cons_placed _ _ _ _ _ _ _ _ _ hp] at hpmem
      exact ih cx cy rh hx hy hrh hrest p hpmem
    · have hp' : vp.placed = false := by simpa using hp
      by_cases hw : width + margin < cx + vp.width
      · by_cases hv : height + margin < cy + rh + gap + vp.height
        · rw [packGo_cons_wrap_stop _ _ _ _ _ _ _ _ _ hp' hw hv] at hpmem
          simp at hpmem
        · rw [packGo_cons_wrap_place _ _ _ _ _ _ _ _ _ hp' hw hv] at hpmem
          rcases List.mem_cons.1 hpmem with rfl | hpmem
          · constructor
            · simp only
              linarith
            · simp only
              linarith
          · exact ih (margin + vp.width + gap) (cy + rh + gap) (max 0 vp.height)
              (by linarith) (by linarith) (le_max_left _ _) hrest p hpmem
      · by_cases hv : height + margin < cy + vp.height
        · rw [packGo_cons_stop _ _ _ _ _ _ _ _ _ hp' hw hv] at hpmem
          simp at hpmem
        · rw [packGo_cons_place _ _ _ _ _ _ _ _ _ hp' hw hv] at hpmem
          rcases List.mem_cons.1 hpmem with rfl | hpmem
          · constructor
            · simp only
              linarith
            · simp only
              linarith
          · exact ih (cx + vp.width + gap) cy (max rh vp.height)
              (by linarith) hy (le_trans hrh (le_max_left _ _)) hrest p hpmem

/-- The vertical-overflow check bounds every placed height by the page
height, as long as the cursor is at or below the top margin. -/
theorem packGo_height_le (width height margin gap : ℚ) (l : List ViewportRect) (hg : 0 ≤ gap) :
    ∀ current_x current_y row_height,
      margin ≤ current_y → 0 ≤ row_height →
      ∀ p ∈ (packGo width height margin gap l current_x current_y row_height).1,
        p.h ≤ height := by
  induction l with
  | nil => intro cx cy rh _ _ p hp; simp [packGo_nil] at hp
  | cons vp rest ih =>
    intro cx cy rh hy hrh p hpmem
    by_cases hp : vp.placed = true
    · rw [packGo_cons_placed _ _ _ _ _ _ _ _ _ hp] at hpmem
      exact ih cx cy rh hy hrh p hpmem
    · have hp' : vp.placed = false := by simpa using hp
      by_cases hw : width + margin < cx + vp.width
      · by_cases hv : height + margin < cy + rh + gap + vp.height
        · rw [packGo_cons_wrap_stop _ _ _ _ _ _ _ _ _ hp' hw hv] at hpmem
          simp at hpmem
        · rw [packGo_cons_wrap_place _ _ _ _ _ _ _ _ _ hp' hw hv] at hpmem
          rcases List.mem_cons.1 hpmem with rfl | hpmem
          · simp only
            linarith
          · exact ih (margin + vp.width + gap) (cy + rh + gap) (max 0 vp.height)
              (by linarith) (le_max_left _ _) p hpmem
      · by_cases hv : height + margin < cy + vp.height
        · rw [packGo_cons_stop _ _ _ _ _ _ _ _ _ hp' hw hv] at hpmem
          simp at hpmem
        · rw [packGo_cons_place _ _ _ _ _ _ _ _ _ hp' hw hv] at hpmem
          rcases List.mem_cons.1 hpmem with rfl | hpmem
          · simp only
            linarith
          · exact ih (cx + vp.width + gap) cy (max rh vp.height)
              hy (le_trans hrh (le_max_left _ _)) p hpmem

/-! ### Claims -/

/-- C1: `packOnePage` iterates the rectangles in the caller-supplied
order, skipping already-placed ones; when `x + w > width + margin` it
wraps to a new row (`x = margin`, `y += rowHeight + gap`,
`rowHeight = 0`); when `y + h > height + margin` it stops the call;
otherwise it records a placement centered at `(x + w/2, y + h/2)`, marks
the rectangle placed, advances `x` by `w + gap` and sets `rowHeight` to
`max rowHeight h`.  In particular three 2-by-2 rectangles on a 5-by-5
page with margin 0 and gap 0 are placed at centers `(1,1)`, `(3,1)` and
`(1,3)` on a single page. -/
theorem C1_packOnePage_behavior :
    (∀ (width height margin gap current_x current_y row_height : ℚ)
       (vp : ViewportRect) (rest : List ViewportRect), vp.placed = true →
       packGo width height margin gap (vp :: rest) current_x current_y row_height =
         ((packGo width height margin gap rest current_x current_y row_height).1,
          vp :: (packGo width height margin gap rest current_x current_y row_height).2)) ∧
    (∀ (width height margin gap current_x current_y row_height : ℚ)
       (vp : ViewportRect) (rest : List ViewportRect), vp.placed = false →
       width + margin < current_x + vp.width →
       height + margin < current_y + row_height + gap + vp.height →
       packGo width height margin gap (vp :: rest) current_x current_y row_height =
         ([], vp :: rest)) ∧
    (∀ (width height margin gap current_x current_y row_height : ℚ)
       (vp : ViewportRect) (rest : List ViewportRect), vp.placed = false →
       width + margin < current_x + vp.width →
       ¬ (height + margin < current_y + row_height + gap + vp.height) →
       packGo width height margin gap (vp :: rest) current_x current_y row_height =
         (⟨vp.id, vp.width, vp.height, margin + vp.width / 2,
             current_y + row_height + gap + vp.height / 2⟩ ::
            (packGo width height margin gap rest (margin + vp.width + gap)
               (current_y + row_height + gap) (max 0 vp.height)).1,
          { vp with placed := true } ::
            (packGo width height margin gap rest (margin + vp.width + gap)
               (current_y + row_height + gap) (max 0 vp.height)).2)) ∧
    (∀ (width height margin gap current_x current_y row_height : ℚ)
       (vp : ViewportRect) (rest : List ViewportRect), vp.placed = false →
       ¬ (width + margin < current_x + vp.width) →
       height + margin < current_y + vp.height →
       packGo width height margin gap (vp :: rest) current_x current_y row_height =
         ([], vp :: rest)) ∧
    (∀ (width height margin gap current_x current_y row_height : ℚ)
       (vp : ViewportRect) (rest : List ViewportRect), vp.placed = false →
       ¬ (width + margin < current_x + vp.width) →
       ¬ (height + margin < current_y + vp.height) →
       packGo width height margin gap (vp :: rest) current_x current_y row_height =
         (⟨vp.id, vp.width, vp.height, current_x + vp.width / 2,
             current_y + vp.height / 2⟩ ::
            (packGo width height margin gap rest (current_x + vp.width + gap) current_y
               (max row_height vp.height)).1,
          { vp with placed := true } ::
            (packGo width height margin gap rest (current_x + vp.width + gap) current_y
               (max row_height vp.height)).2)) ∧
    packOnePage [⟨1, 2, 2, false⟩, ⟨2, 2, 2, false⟩, ⟨3, 2, 2, false⟩] 5 5 0 0 =
      ([⟨1, 2, 2, 1, 1⟩, ⟨2, 2, 2, 3, 1⟩, ⟨3, 2, 2, 1, 3⟩],
       [⟨1, 2, 2, true⟩, ⟨2, 2, 2, true⟩, ⟨3, 2, 2, true⟩]) ∧
    packAll [⟨1, 2, 2, false⟩, ⟨2, 2, 2, false⟩, ⟨3, 2, 2, false⟩] 5 5 0 0 =
      ([[⟨1, 2, 2, 1, 1⟩, ⟨2, 2, 2, 3, 1⟩, ⟨3, 2, 2, 1, 3⟩]],
       [⟨1, 2, 2, true⟩, ⟨2, 2, 2, true⟩, ⟨3, 2, 2, true⟩]) := by
  refine ⟨packGo_cons_placed, packGo_cons_wrap_stop, packGo_cons_wrap_place,
    packGo_cons_stop, packGo_cons_place, ?_, ?_⟩
  · norm_num [packOnePage, packGo, max_def]
  · norm_num [packAll, packAllLoop, packOnePage, packGo, max_def]

/-- Witness for C1: one concrete instance of each of the five step
behaviors (skip, wrap-then-stop, wrap-then-place, stop, place). -/
theorem C1_packOnePage_behavior_witness :
    packGo 5 5 0 0 [⟨101, 2, 2, true⟩] 0 0 0 = ([], [⟨101, 2, 2, true⟩]) ∧
    packGo 5 5 0 0 [⟨102, 6, 5, false⟩] 0 0 1 = ([], [⟨102, 6, 5, false⟩]) ∧
    packGo 5 5 0 0 [⟨103, 6, 2, false⟩] 1 0 1 = ([⟨103, 6, 2, 3, 2⟩], [⟨103, 6, 2, true⟩]) ∧
    packGo 5 5 0 0 [⟨104, 2, 6, false⟩] 0 0 0 = ([], [⟨104, 2, 6, false⟩]) ∧
    packGo 5 5 0 0 [⟨105, 2, 2, false⟩] 0 0 0 =
      ([⟨105, 2, 2, 1, 1⟩], [⟨105, 2, 2, true⟩]) := by
  refine ⟨?_, ?_, ?_, ?_, ?_⟩
  · have h := C1_packOnePage_behavior.1 5 5 0 0 0 0 0 ⟨101, 2, 2, true⟩ [] rfl
    rw [h]
    norm_num [packGo_nil]
  · exact C1_packOnePage_behavior.2.1 5 5 0 0 0 0 1 ⟨102, 6, 5, false⟩ [] rfl
      (by norm_num) (by norm_num)
  · have h := C1_packOnePage_behavior.2.2.1 5 5 0 0 1 0 1 ⟨103, 6, 2, false⟩ [] rfl
      (by norm_num) (by norm_num)
    rw [h]
    norm_num [packGo_nil]
  · exact C1_packOnePage_behavior.2.2.2.1 5 5 0 0 0 0 0 ⟨104, 2, 6, false⟩ [] rfl
      (by norm_num) (by norm_num)
  · have h := C1_packOnePage_behavior.2.2.2.2.1 5 5 0 0 0 0 0 ⟨105, 2, 2, false⟩ [] rfl
      (by norm_num) (by norm_num)
    rw [h]
    norm_num [packGo_nil]

/-- C2 (amended): no placement made by `packOnePage` has a height
exceeding the page height — a rectangle taller than the page is never
placed.  (The width half of the original claim is false, see the
counterexample: a rectangle wider than the page is placed on its own
row.) -/
theorem C2_placed_height_bounded (rects : List ViewportRect)
    (available_width available_height margin gap : ℚ) (hg : 0 ≤ gap) :
    ∀ p ∈ (packOnePage rects available_width available_height margin gap).1,
      p.h ≤ available_height :=
  fun p hp =>
    packGo_height_le available_width available_height margin gap rects hg margin margin 0
      le_rfl le_rfl p hp

/-- Witness for C2: a 1-by-3 rectangle placed on a 5-by-5 page indeed
has height at most 5. -/
theorem C2_placed_height_bounded_witness :
    ((packOnePage [⟨60, 1, 3, false⟩] 5 5 0 0).1.headI).h ≤ 5 := by
  apply C2_placed_height_bounded [⟨60, 1, 3, false⟩] 5 5 0 0 (by norm_num)
  norm_num [packOnePage, packGo]

/-- Counterexample to C2 as stated: a rectangle of width 10 on a page of
width 5 (margin 0) does receive a placement — the row-overflow check
only wraps to a new row, it does not skip the oversized rectangle. -/
theorem C2_wide_rectangle_placed :
    (5 : ℚ) < 10 ∧
    (pack_viewports_on_sheet [⟨0, 10, 2, false⟩] 5 5 0).1 =
      [⟨0, 10, 2, 5, 1033 / 1000⟩] := by
  constructor
  · norm_num
  · norm_num [pack_viewports_on_sheet, packOnePage, packGo]

/-- C3 (amended): whenever `packOnePage` returns zero placements while
unplaced rectangles remain, the Phase 7 loop stops immediately — no
retry, no further page; the remaining rectangles simply stay unplaced
(the source records no error for them). -/
theorem C3_packAll_stops_on_zero_placements (rects : List ViewportRect)
    (w h m g : ℚ) (hall : rects.all (fun vp => vp.placed) = false)
    (hzero : (packOnePage rects w h m g).1 = []) :
    packAll rects w h m g = ([], (packOnePage rects w h m g).2) := by
  unfold packAll
  rw [packAllLoop]
  simp [hall, hzero]

/-- Witness for C3: a 2-by-10 rectangle on a 5-by-5 page produces zero
placements, and the sheet loop stops at once with no page created. -/
theorem C3_packAll_stops_witness :
    packAll [⟨8, 2, 10, false⟩] 5 5 0 (33 / 1000) = ([], [⟨8, 2, 10, false⟩]) := by
  have h := C3_packAll_stops_on_zero_placements [⟨8, 2, 10, false⟩] 5 5 0 (33 / 1000)
    (by simp) (by norm_num [packOnePage, packGo])
  rw [h]
  norm_num [packOnePage, packGo]

/-- Counterexample to C3's scenario: a single 10-by-2 rectangle on a
page of capacity 5-by-5 does NOT yield zero placements — it is placed
(the packer wraps and only re-checks the height), and the loop creates
one sheet for it; no `UnplaceableRectangleError` exists in the code. -/
theorem C3_oversized_rectangle_gets_placed :
    (packOnePage [⟨7, 10, 2, false⟩] 5 5 0 (33 / 1000)).1.length = 1 ∧
    (packAll [⟨7, 10, 2, false⟩] 5 5 0 (33 / 1000)).1.length = 1 := by
  constructor
  · norm_num [packOnePage, packGo]
  · norm_num [packAll, packAllLoop, packOnePage, packGo]

/-- C4: on every page produced by the sheet loop, the placed rectangles
(centered at the recorded coordinates) have pairwise disjoint interiors,
given a nonnegative gap and positive rectangle dimensions. -/
theorem C4_placements_disjoint (rects : List ViewportRect) (w h m g : ℚ)
    (hg : 0 ≤ g) (hd : ∀ vp ∈ rects, 0 < vp.width ∧ 0 < vp.height) :
    ∀ page ∈ (packAll rects w h m g).1,
      List.Pairwise (fun p q => ¬ overlaps p q) page := by
  have key : ∀ (fuel : Nat) (l : List ViewportRect),
      (∀ vp ∈ l, 0 ≤ vp.width ∧ 0 ≤ vp.height) →
      ∀ page ∈ (packAllLoop fuel l w h m g).1,
        List.Pairwise (fun p q => ¬ overlaps p q) page := by
    intro fuel
    induction fuel with
    | zero =>
      intro l _ page hpage
      simp [packAllLoop] at hpage
    | succ f ih =>
      intro l hl page hpage
      by_cases hall : l.all (fun vp => vp.placed) = true
      · rw [packAllLoop] at hpage
        simp [hall] at hpage
      · by_cases hlen : (packOnePage l w h m g).1.length = 0
        · rw [packAllLoop] at hpage
          simp [hall, hlen] at hpage
        · rw [packAllLoop] at hpage
          simp only [hall, if_neg, ite_false, Bool.false_eq_true] at hpage
          simp only [hlen, if_neg, ite_false] at hpage
          rcases List.mem_cons.1 hpage with rfl | hpage
          · exact (packGo_geom w h m g l hg m m 0 hl).2
          · have hpres : ∀ vp ∈ (packOnePage l w h m g).2,
                0 ≤ vp.width ∧ 0 ≤ vp.height := by
              intro vp hvp
              exact packGo_preserves (fun a c => 0 ≤ a ∧ 0 ≤ c) w h m g l m m 0 hl vp hvp
            exact ih (packOnePage l w h m g).2 hpres page hpage
  exact key _ rects fun vp hvp => ⟨le_of_lt (hd vp hvp).1, le_of_lt (hd vp hvp).2⟩

/-- Witness for C4: the two placements of a concrete packing run do not
overlap. -/
theorem C4_placements_disjoint_witness :
    List.Pairwise (fun p q => ¬ overlaps p q)
      [(⟨40, 2, 1, 1, 1 / 2⟩ : Placement), ⟨41, 2, 2, 3, 1⟩] := by
  have h := C4_placements_disjoint [⟨40, 2, 1, false⟩, ⟨41, 2, 2, false⟩] 5 5 0 0
    (by norm_num) (by norm_num)
  have hmem : [(⟨40, 2, 1, 1, 1 / 2⟩ : Placement), ⟨41, 2, 2, 3, 1⟩] ∈
      (packAll [⟨40, 2, 1, false⟩, ⟨41, 2, 2, false⟩] 5 5 0 0).1 := by
    norm_num [packAll, packAllLoop, packOnePage, packGo, max_def]
  exact h _ hmem

/-- C5 (amended): `create_section_for_room` fails exactly when the
bounding box is absent; a zero major extent is NOT checked and still
yields a section spec.  Each failing room/orientation is recorded as a
diagnostic while processing continues: over any room list, sections plus
diagnostics account for two entries per room. -/
theorem C5_failure_iff_missing_bbox :
    (∀ (bbox : Option BoundingBoxXYZ) (o : Orientation) (offset : ℚ),
       create_section_for_room bbox o offset = none ↔ bbox = none) ∧
    (∀ (rooms : List (Option BoundingBoxXYZ)) (offset : ℚ) (counter : Nat),
       (create_sections_phase rooms offset counter).1.length =
         2 * rooms.countP (fun r => r.isSome) ∧
       (create_sections_phase rooms offset counter).2.length =
         2 * rooms.countP (fun r => r.isNone)) := by
  constructor
  · intro bbox o offset
    cases bbox <;> simp [create_section_for_room]
  · intro rooms offset counter
    induction rooms generalizing counter with
    | nil => simp [create_sections_phase]
    | cons r rest ih =>
      have htail := ih (counter + 1)
      cases r with
      | none =>
        constructor
        · simp [create_sections_phase, create_section_for_room, List.countP_cons, htail.1]
        · simp [create_sections_phase, create_section_for_room, List.countP_cons, htail.2]
          ring
      | some b =>
        constructor
        · simp [create_sections_phase, create_section_for_room, List.countP_cons, htail.1]
          ring
        · simp [create_sections_phase, create_section_for_room, List.countP_cons, htail.2]

/-- Counterexample to C5 as stated: a bounding box with zero major
extent (a degenerate footprint) does not fail — the code performs no
zero-extent check and derives a section spec anyway. -/
theorem C5_zero_major_extent_succeeds :
    major_width ⟨⟨0, 0, 0⟩, ⟨0, 0, 3⟩⟩ = 0 ∧
    (create_section_for_room (some ⟨⟨0, 0, 0⟩, ⟨0, 0, 3⟩⟩) Orientation.vertical
        (164 / 100)).isSome = true := by
  constructor
  · norm_num [major_width, major_is_x, width_x, width_y]
  · simp [create_section_for_room]

/-- C6: the major horizontal axis is X exactly when `widthX ≥ widthY`
(ties favour X); the vertical derivation uses the major axis as
width-direction with the minor extent as depth (tag `"V"`), the
horizontal derivation uses the minor axis with the major extent as depth
(tag `"H"`); for `min=(0,0,0), max=(4,2,3)` the major axis is X, the
vertical section has width 4 and depth 2, the horizontal one width 2 and
depth 4. -/
theorem C6_axis_selection :
    (∀ (b : BoundingBoxXYZ) (offset : ℚ), width_y b ≤ width_x b →
       major_is_x b = true ∧
       (section_spec_for_bbox b Orientation.vertical offset).basisRight = XYZ.basisX ∧
       section_width b Orientation.vertical = width_x b ∧
       section_depth b Orientation.vertical = width_y b ∧
       (section_spec_for_bbox b Orientation.vertical offset).tag = "V" ∧
       (section_spec_for_bbox b Orientation.horizontal offset).basisRight = XYZ.basisY ∧
       section_width b Orientation.horizontal = width_y b ∧
       section_depth b Orientation.horizontal = width_x b ∧
       (section_spec_for_bbox b Orientation.horizontal offset).tag = "H") ∧
    (∀ (b : BoundingBoxXYZ) (offset : ℚ), width_x b < width_y b →
       major_is_x b = false ∧
       (section_spec_for_bbox b Orientation.vertical offset).basisRight = XYZ.basisY ∧
       section_width b Orientation.vertical = width_y b ∧
       section_depth b Orientation.vertical = width_x b ∧
       (section_spec_for_bbox b Orientation.horizontal offset).basisRight = XYZ.basisX ∧
       section_width b Orientation.horizontal = width_x b ∧
       section_depth b Orientation.horizontal = width_y b) ∧
    (major_is_x ⟨⟨0, 0, 0⟩, ⟨4, 2, 3⟩⟩ = true ∧
     section_width ⟨⟨0, 0, 0⟩, ⟨4, 2, 3⟩⟩ Orientation.vertical = 4 ∧
     section_depth ⟨⟨0, 0, 0⟩, ⟨4, 2, 3⟩⟩ Orientation.vertical = 2 ∧
     section_width ⟨⟨0, 0, 0⟩, ⟨4, 2, 3⟩⟩ Orientation.horizontal = 2 ∧
     section_depth ⟨⟨0, 0, 0⟩, ⟨4, 2, 3⟩⟩ Orientation.horizontal = 4) := by
  refine ⟨?_, ?_, ?_⟩
  · intro b offset hle
    have hmx : major_is_x b = true := by
      simp [major_is_x]
      exact hle
    refine ⟨hmx, ?_, ?_, ?_, rfl, ?_, ?_, ?_, rfl⟩ <;>
      simp [section_spec_for_bbox, sectionRight, section_width, section_depth,
        major_width, minor_width, hmx]
  · intro b offset hlt
    have hmx : major_is_x b = false := by
      simp [major_is_x]
      exact hlt
    refine ⟨hmx, ?_, ?_, ?_, ?_, ?_, ?_⟩ <;>
      simp [section_spec_for_bbox, sectionRight, section_width, section_depth,
        major_width, minor_width, hmx]
  · refine ⟨?_, ?_, ?_, ?_, ?_⟩ <;>
      norm_num [major_is_x, major_width, minor_width, section_width, section_depth,
        width_x, width_y]

/-- Witness for C6: the axis-selection implications at concrete boxes,
one with the X extent dominant and one with the Y extent dominant. -/
theorem C6_axis_selection_witness :
    (section_spec_for_bbox ⟨⟨0, 0, 0⟩, ⟨4, 2, 3⟩⟩ Orientation.vertical 1).basisRight =
      XYZ.basisX ∧
    (section_spec_for_bbox ⟨⟨0, 0, 0⟩, ⟨2, 4, 3⟩⟩ Orientation.vertical 1).basisRight =
      XYZ.basisY := by
  constructor
  · exact (C6_axis_selection.1 ⟨⟨0, 0, 0⟩, ⟨4, 2, 3⟩⟩ 1
      (by norm_num [width_x, width_y])).2.1
  · exact (C6_axis_selection.2.1 ⟨⟨0, 0, 0⟩, ⟨2, 4, 3⟩⟩ 1
      (by norm_num [width_x, width_y])).2.1

/-- C7: for every bounding box, orientation and offset, the local
extents of the derived section box are: width axis
`[-sectionWidth/2 - offset, sectionWidth/2 + offset]`, vertical axis
centered on the room `[-heightZ/2 - offset, heightZ/2 + offset]`, and
depth axis anchored at the near face `[0, sectionDepth + offset]` —
one single convention for all rooms and both orientations. -/
theorem C7_local_extents (b : BoundingBoxXYZ) (o : Orientation) (offset : ℚ) :
    (section_spec_for_bbox b o offset).localMin =
      ⟨-(section_width b o / 2) - offset, -(height_z b / 2) - offset, 0⟩ ∧
    (section_spec_for_bbox b o offset).localMax =
      ⟨section_width b o / 2 + offset, height_z b / 2 + offset,
       section_depth b o + offset⟩ :=
  ⟨rfl, rfl⟩

/-- C8: for every derived section spec, `basisRight` is the unit vector
of the chosen width-direction world axis, `basisUp` is world Z,
`basisView = basisRight × basisUp`, and the three vectors form a
right-handed orthonormal frame. -/
theorem C8_orthonormal_frame (b : BoundingBoxXYZ) (o : Orientation) (offset : ℚ) :
    (section_spec_for_bbox b o offset).basisRight = sectionRight b o ∧
    (section_spec_for_bbox b o offset).basisUp = XYZ.basisZ ∧
    (section_spec_for_bbox b o offset).basisView =
      XYZ.cross (section_spec_for_bbox b o offset).basisRight
        (section_spec_for_bbox b o offset).basisUp ∧
    ((section_spec_for_bbox b o offset).basisRight = XYZ.basisX ∨
     (section_spec_for_bbox b o offset).basisRight = XYZ.basisY) ∧
    XYZ.dot (section_spec_for_bbox b o offset).basisRight
      (section_spec_for_bbox b o offset).basisUp = 0 ∧
    XYZ.dot (section_spec_for_bbox b o offset).basisRight
      (section_spec_for_bbox b o offset).basisView = 0 ∧
    XYZ.dot (section_spec_for_bbox b o offset).basisUp
      (section_spec_for_bbox b o offset).basisView = 0 ∧
    XYZ.dot (section_spec_for_bbox b o offset).basisRight
      (section_spec_for_bbox b o offset).basisRight = 1 ∧
    XYZ.dot (section_spec_for_bbox b o offset).basisUp
      (section_spec_for_bbox b o offset).basisUp = 1 ∧
    XYZ.dot (section_spec_for_bbox b o offset).basisView
      (section_spec_for_bbox b o offset).basisView = 1 := by
  have hr : sectionRight b o = XYZ.basisX ∨ sectionRight b o = XYZ.basisY := by
    rcases Bool.eq_false_or_eq_true (major_is_x b) with hb | hb <;>
      cases o <;> simp [sectionRight, hb]
  refine ⟨rfl, rfl, rfl, hr, ?_, ?_, ?_, ?_, ?_, ?_⟩ <;>
    rcases hr with hr | hr <;>
      simp [section_spec_for_bbox, hr, XYZ.dot, XYZ.cross,
        XYZ.basisX, XYZ.basisY, XYZ.basisZ]

/-- C9 (amended): the page count of the sheet loop is NOT monotone in
page capacity — increasing the available height (width 4 fixed, height
9 to 10) strictly increases the number of pages from 2 to 3 on a fixed
rectangle list. -/
theorem C9_capacity_not_monotone :
    (packAll [⟨20, 4, 9, false⟩, ⟨21, 2, 1, false⟩, ⟨22, 2, 2, false⟩,
        ⟨23, 2, 7, false⟩, ⟨24, 2, 4, false⟩] 4 9 0 0).1.length = 2 ∧
    (packAll [⟨20, 4, 9, false⟩, ⟨21, 2, 1, false⟩, ⟨22, 2, 2, false⟩,
        ⟨23, 2, 7, false⟩, ⟨24, 2, 4, false⟩] 4 10 0 0).1.length = 3 := by
  constructor <;> norm_num [packAll, packAllLoop, packOnePage, packGo, max_def]

/-- Counterexample to C9: shrinking the available width from 6 to 4
(height 10 fixed) DECREASES the page count from 2 to 1 on a fixed
rectangle list, contradicting "never decreases when capacity
decreases". -/
theorem C9_monotonicity_counterexample :
    (packAll [⟨30, 4, 2, false⟩, ⟨31, 2, 8, false⟩, ⟨32, 2, 3, false⟩]
        6 10 0 0).1.length = 2 ∧
    (packAll [⟨30, 4, 2, false⟩, ⟨31, 2, 8, false⟩, ⟨32, 2, 3, false⟩]
        4 10 0 0).1.length = 1 := by
  constructor <;> norm_num [packAll, packAllLoop, packOnePage, packGo, max_def]

/-- C10: with nonnegative margin and gap and positive dimensions, every
placement made by `packOnePage` keeps its rectangle clear of the left
and top margins: `centerX - width/2 ≥ margin` and
`centerY - height/2 ≥ margin`. -/
theorem C10_margin_clearance (rects : List ViewportRect)
    (available_width available_height margin gap : ℚ)
    (hm : 0 ≤ margin) (hg : 0 ≤ gap)
    (hd : ∀ vp ∈ rects, 0 < vp.width ∧ 0 < vp.height) :
    ∀ p ∈ (packOnePage rects available_width available_height margin gap).1,
      margin ≤ p.x - p.w / 2 ∧ margin ≤ p.y - p.h / 2 :=
  fun p hp =>
    packGo_margin available_width available_height margin gap rects hg margin margin 0
      le_rfl le_rfl le_rfl (fun vp hvp => le_of_lt (hd vp hvp).1) p hp

/-- Witness for C10: a 2-by-2 rectangle packed with margin 1 lands with
its left and top edges at the margin. -/
theorem C10_margin_clearance_witness :
    (1 : ℚ) ≤ ((packOnePage [⟨50, 2, 2, false⟩] 5 5 1 0).1.headI).x -
        ((packOnePage [⟨50, 2, 2, false⟩] 5 5 1 0).1.headI).w / 2 ∧
    (1 : ℚ) ≤ ((packOnePage [⟨50, 2, 2, false⟩] 5 5 1 0).1.headI).y -
        ((packOnePage [⟨50, 2, 2, false⟩] 5 5 1 0).1.headI).h / 2 := by
  exact C10_margin_clearance [⟨50, 2, 2, false⟩] 5 5 1 0 (by norm_num) le_rfl
    (by norm_num) ((packOnePage [⟨50, 2, 2, false⟩] 5 5 1 0).1.headI)
    (by norm_num [packOnePage, packGo])

end VisionXtools
